import Mathlib

/-!
Shallow embedding of the authoritative game server in `server/index.js`
(battle-cars).  JavaScript `Map`s are modelled as association lists
(`List (K × V)`) with JS `Map` semantics: `set` replaces in place or appends,
`delete` removes the (unique) entry, iteration follows insertion order.
JS `Set`s are modelled as duplicate-free `List String`.  Numbers are `ℚ`
(health, damage, coordinates) or `ℤ` (millisecond timestamps); `Math.round`
is `⌊x + 1/2⌋`, matching JS round-half-up.  Successive `Date.now()` calls
inside one handler are modelled as a single `now : ℤ` parameter, and every
random choice (spawn point, powerup id/type/position) is an explicit oracle
argument.  A JS field that may be `undefined` is an `Option`; numeric fields
that are only ever tested for truthiness (`invulnerableUntil`, `shieldUntil`)
are plain integers with `0` meaning unset, which has the same truthiness.
Code paths that would throw (`room.forEach` on `undefined`) are modelled with
`Except`, the error carrying the state at the moment of the throw.
-/

namespace BattleCars

/-- Association-list lookup: JS `Map.get`. -/
def lookupA {K V : Type} [DecidableEq K] : List (K × V) → K → Option V
  | [], _ => none
  | (k, v) :: rest, key => if k = key then some v else lookupA rest key

/-- Association-list store: JS `Map.set` (replace in place, else append). -/
def insertA {K V : Type} [DecidableEq K] : List (K × V) → K → V → List (K × V)
  | [], key, val => [(key, val)]
  | (k, v) :: rest, key, val =>
      if k = key then (k, val) :: rest else (k, v) :: insertA rest key val

/-- Association-list removal: JS `Map.delete` (keys are unique in a `Map`). -/
def eraseA {K V : Type} [DecidableEq K] : List (K × V) → K → List (K × V)
  | [], _ => []
  | (k, v) :: rest, key => if k = key then rest else (k, v) :: eraseA rest key

/-- JS `a || b` for strings (`''` is falsy). -/
def jsOrS (a b : String) : String := if a = "" then b else a

/-- JS `a || b` for numbers (`0` is falsy; `NaN` not modelled). -/
def jsOrQ (a b : ℚ) : ℚ := if a = 0 then b else a

/-- JS `Math.round` on a real-valued expression: round half toward +∞. -/
def roundJS (q : ℚ) : ℤ := ⌊q + 1 / 2⌋

/-- JS `String.prototype.slice(-4)`: the last four characters. -/
def sliceLast4 (s : String) : String := ⟨s.data.drop (s.data.length - 4)⟩

/-- JS `String.prototype.slice(0, 6)`: the first six characters. -/
def sliceFirst6 (s : String) : String := ⟨s.data.take 6⟩

/-- JS `str.trim().substring(0, n)`. -/
def trimTrunc (s : String) (n : ℕ) : String := ⟨s.trim.data.take n⟩

/-- JS `Set.add`: append if absent (a `Set` holds unique values). -/
def addS (l : List String) (x : String) : List String :=
  if x ∈ l then l else l ++ [x]

/-- A 3-D position `{x, y, z}`. -/
structure Pos where
  x : ℚ
  y : ℚ
  z : ℚ
deriving DecidableEq, Repr

/-- Server-side vehicle preset `{id, damageDealtMultiplier, damageTakenMultiplier, maxHealth}`. -/
structure Vehicle where
  vid : String
  damageDealtMultiplier : ℚ
  damageTakenMultiplier : ℚ
  maxHealth : ℚ
deriving DecidableEq, Repr

/-- A player record as created on connection (`io.on('connection')`). -/
structure Player where
  name : String
  position : Pos
  rotation : ℚ
  health : ℚ
  vehicle : Vehicle
  room : Option String
  invulnerableUntil : ℤ
  shieldUntil : ℤ
deriving DecidableEq, Repr

/-- A leaderboard entry `{kills, deaths, damageDealt, playerName}`. -/
structure Stats where
  kills : ℕ
  deaths : ℕ
  damageDealt : ℤ
  playerName : String
deriving DecidableEq, Repr

/-- An active powerup record. -/
structure Powerup where
  ptype : String
  position : Pos
  dropTime : ℤ
  collected : Bool
  landTime : ℤ
  despawnTime : ℤ
deriving DecidableEq, Repr

/-- Room phase: `'waiting' | 'playing' | 'roundEnd'`. -/
inductive Phase
  | waiting
  | playing
  | roundEnd
deriving DecidableEq, Repr

/-- Per-room game state, as built by `initializeRoomGameState`. -/
structure RoomState where
  phase : Phase
  roundStartTime : Option ℤ
  roundEndTime : Option ℤ
  waitingStartTime : Option ℤ
  leaderboard : List (String × Stats)
  activePlayers : List String
  respawningPlayers : List (String × ℤ)
  powerups : List (String × Powerup)
  lastPowerupDrop : ℤ
deriving DecidableEq, Repr

/-- A boost pad `{id, x, z, rotation}`. -/
structure BoostPad where
  bid : String
  x : ℚ
  z : ℚ
  rotation : ℚ
deriving DecidableEq, Repr

/-- The global mutable `gameState` object (the map-valued fields).
`gameStates` is keyed by `Option String` because `player.room` can be `null`
and `getRoomGameState(null)` stores under the `null` key. -/
structure ServerState where
  players : List (String × Player)
  rooms : List (String × List String)
  gameStates : List (Option String × RoomState)
  boostPads : List (String × List BoostPad)
deriving DecidableEq, Repr

/-- Audience of one `emit` call. -/
inductive Audience
  | toRoom : Option String → Audience
  | toOthers : Option String → String → Audience
  | toSelf : String → Audience
deriving DecidableEq, Repr

/-- Snapshot of one player inside a `roundStarted`/`roomJoined` payload. -/
structure PlayerSnap where
  sid : String
  position : Pos
  health : ℚ
  vehicleId : String
deriving DecidableEq, Repr

/-- One entry of the `roomJoined.players` array. -/
structure JoinSnap where
  jid : String
  name : String
  position : Pos
  health : ℚ
  vehicleId : String
deriving DecidableEq, Repr

/-- The `roomJoined` payload. -/
structure RoomJoinedData where
  roomId : String
  players : List JoinSnap
  phase : Phase
  roundEndTime : Option ℤ
  waitingEndTime : Option ℤ
  boostPads : List BoostPad
deriving DecidableEq, Repr

/-- Outbound event payloads used by the embedded handlers. -/
inductive Payload
  | playerDamaged (playerId : String) (health : ℚ) (damage : ℚ)
      (collisionType : String) (attackerId : String)
  | playerDestroyed (playerId : String) (respawnTime : ℤ) (attackerId : String)
  | playerRespawned (playerId : String) (position : Pos) (health : ℚ) (vehicleId : String)
  | chatMsg (playerId : String) (playerName : String) (message : String)
      (timestamp : String) (isSystem : Bool)
  | playerLeft (playerId : String)
  | powerupDropped (powerupId : String) (ptype : String) (position : Pos) (landTime : ℤ)
  | powerupRemoved (powerupId : String)
  | powerupCollected (powerupId : String) (playerId : String) (ptype : String)
  | shieldActivated (duration : ℤ) (endsAt : ℤ)
  | playerShielded (playerId : String) (shieldUntil : ℤ)
  | playerVehicleChanged (playerId : String) (vehicleId : String)
  | playerSpawn (position : Pos) (health : ℚ) (invulnerableMs : ℤ)
  | roundStarted (roundEndTime : Option ℤ) (players : List PlayerSnap)
  | roundEnded (leaderboard : List (String × Stats)) (totalKills : ℕ) (totalDamage : ℤ)
  | waitingPhaseStarted (waitingEndTime : ℤ)
  | roomJoined (d : RoomJoinedData)
  | playerJoined (playerId : String) (name : String) (position : Pos)
      (health : ℚ) (vehicleId : String)
  | roomFull (roomId : String)
deriving DecidableEq, Repr

/-- One `emit`: an audience plus a payload. -/
structure Emit where
  aud : Audience
  pay : Payload
deriving DecidableEq, Repr

/-- Fresh per-room state, as in `initializeRoomGameState`. -/
def initRoomState : RoomState :=
  { phase := .waiting, roundStartTime := none, roundEndTime := none,
    waitingStartTime := none, leaderboard := [], activePlayers := [],
    respawningPlayers := [], powerups := [], lastPowerupDrop := 0 }

/-- `getRoomGameState`'s creation side effect: initialize the room's state
if it is not present yet. -/
def ensureRS (s : ServerState) (rm : Option String) : ServerState :=
  if (lookupA s.gameStates rm).isSome then s
  else { s with gameStates := insertA s.gameStates rm initRoomState }

/-- Read a room's game state (total: a missing entry reads as the fresh
state that `getRoomGameState` would create). -/
def getRS (s : ServerState) (rm : Option String) : RoomState :=
  (lookupA s.gameStates rm).getD initRoomState

/-- In-place mutation of an existing room state (JS mutates the object held
by the map; absent entries are left alone — every call site runs after
`getRoomGameState` has ensured presence). -/
def updateRS (s : ServerState) (rm : Option String) (f : RoomState → RoomState) :
    ServerState :=
  match lookupA s.gameStates rm with
  | none => s
  | some rs => { s with gameStates := insertA s.gameStates rm (f rs) }

/-- `gameState.maxPlayersPerRoom`. -/
def maxPlayersPerRoom : ℕ := 8
/-- `gameState.roundDuration` (4 minutes, ms). -/
def roundDuration : ℤ := 4 * 60 * 1000
/-- `gameState.waitingDuration` (1 minute, ms). -/
def waitingDuration : ℤ := 1 * 60 * 1000
/-- `gameState.respawnDuration` (3 s, ms). -/
def respawnDuration : ℤ := 3 * 1000
/-- `gameState.spawnInvulnerableMs` (2 s). -/
def spawnInvulnerableMs : ℤ := 2000
/-- `gameState.entryDescentMs` (8 s). -/
def entryDescentMs : ℤ := 8000
/-- `gameState.respawnDescentMs` (3 s). -/
def respawnDescentMs : ℤ := 3000

/-- The server-side vehicle presets of the `vehicleSelected` handler. -/
def presetFor (i : String) : Vehicle :=
  if i = "sport" then ⟨"sport", 95 / 100, 12 / 10, 80⟩
  else if i = "tank" then ⟨"tank", 125 / 100, 8 / 10, 130⟩
  else ⟨"balanced", 1, 1, 100⟩

/-- The JS pattern `const st = map.get(k); if (st) mutate(st)` on a
leaderboard: update the entry in place when present, else do nothing. -/
def updStats (lb : List (String × Stats)) (k : String) (f : Stats → Stats) :
    List (String × Stats) :=
  match lookupA lb k with
  | none => lb
  | some st => insertA lb k (f st)

/-- Payload of a `playerDamaged` inbound event
(`{targetPlayerId, damage, collisionType}`; absent fields are `none`). -/
structure DamageData where
  targetPlayerId : String
  damage : Option ℚ
  collisionType : Option String
deriving DecidableEq, Repr

/-- The body of the `playerDamaged` handler after all validations passed
(factored out of `playerDamagedHandler` for proof modularity): `s1` is the
state after `getRoomGameState`, `a`/`t` the attacker and target records,
`dmg` the validated raw damage and `ct` the raw collision type. -/
def applyDamageCore (s1 : ServerState) (sid tid : String) (ct : Option String)
    (dmg : ℚ) (now : ℤ) (a t : Player) : ServerState × List Emit :=
  let finalDamage : ℤ :=
    if ct.getD "" = "monster" then
      max 0 (roundJS (t.vehicle.maxHealth * (20 / 100)))
    else
      max 0 (roundJS (dmg * a.vehicle.damageDealtMultiplier *
        t.vehicle.damageTakenMultiplier))
  let newHealth : ℚ := max 0 (t.health - (finalDamage : ℚ))
  let tp2 := { t with health := newHealth }
  let s2 := { s1 with players := insertA s1.players tid tp2 }
  let s3 :=
    if ct.getD "" ≠ "monster" then
      updateRS s2 a.room fun rs =>
        { rs with leaderboard :=
            updStats rs.leaderboard sid fun st =>
              { st with damageDealt := st.damageDealt + finalDamage } }
    else s2
  let e1 : Emit :=
    ⟨.toRoom a.room,
      .playerDamaged tid newHealth (finalDamage : ℚ)
        (jsOrS (ct.getD "") "normal")
        (if ct.getD "" = "monster" then "monster" else sid)⟩
  if newHealth ≤ 0 then
    let s4 := updateRS s3 a.room fun rs =>
      let lb1 := updStats rs.leaderboard sid fun st =>
        { st with kills := st.kills + 1 }
      let lb2 := updStats lb1 tid fun st =>
        { st with deaths := st.deaths + 1 }
      { rs with
        leaderboard := lb2,
        activePlayers := rs.activePlayers.erase tid,
        respawningPlayers :=
          insertA rs.respawningPlayers tid (now + respawnDuration) }
    (s4, [e1, ⟨.toRoom a.room, .playerDestroyed tid (now + respawnDuration) sid⟩])
  else (s3, [e1])

/-- The `socket.on('playerDamaged')` handler, translated guard for guard.
`sid` is `socket.id`. -/
def playerDamagedHandler (s : ServerState) (sid : String) (data : DamageData)
    (now : ℤ) : ServerState × List Emit :=
  match lookupA s.players sid with
  | none => (s, [])
  | some attackingPlayer =>
    match lookupA s.players data.targetPlayerId with
    | none => (s, [])
    | some targetPlayer =>
      match data.damage with
      | none => (s, [])
      | some dmg =>
        if dmg < 0 then (s, [])
        else if attackingPlayer.room ≠ targetPlayer.room then (s, [])
        else
          -- const roomState = getRoomGameState(attackingPlayer.room)
          let s1 := ensureRS s attackingPlayer.room
          let roomState := getRS s1 attackingPlayer.room
          if roomState.phase ≠ .playing then (s1, [])
          else if attackingPlayer.invulnerableUntil ≠ 0 ∧
              now < attackingPlayer.invulnerableUntil then (s1, [])
          else if targetPlayer.invulnerableUntil ≠ 0 ∧
              now < targetPlayer.invulnerableUntil then (s1, [])
          else if targetPlayer.shieldUntil ≠ 0 ∧
              now < targetPlayer.shieldUntil then (s1, [])
          else
            applyDamageCore s1 sid data.targetPlayerId data.collisionType dmg
              now attackingPlayer targetPlayer

/-- The `socket.on('vehicleSelected')` handler. -/
def vehicleSelectedHandler (s : ServerState) (sid : String)
    (vehicleId : Option String) : ServerState × List Emit :=
  match lookupA s.players sid with
  | none => (s, [])
  | some player =>
    let i := match vehicleId with
      | some v => if v = "sport" ∨ v = "balanced" ∨ v = "tank" then v else "balanced"
      | none => "balanced"
    let veh := presetFor i
    let p2 := { player with vehicle := veh, health := min player.health veh.maxHealth }
    let s2 := { s with players := insertA s.players sid p2 }
    let e1 : List Emit :=
      if player.room.isSome then [⟨.toRoom player.room, .playerVehicleChanged sid i⟩] else []
    (s2, e1 ++ [⟨.toSelf sid, .playerSpawn p2.position p2.health 0⟩])

/-- The `socket.on('collectPowerup')` handler. -/
def collectPowerupHandler (s : ServerState) (sid : String) (powerupId : String)
    (now : ℤ) : ServerState × List Emit :=
  match lookupA s.players sid with
  | none => (s, [])
  | some player =>
    match player.room with
    | none => (s, [])
    | some rm =>
      let s1 := ensureRS s (some rm)
      let rs := getRS s1 (some rm)
      match lookupA rs.powerups powerupId with
      | none => (s1, [])
      | some powerup =>
        if powerup.collected then (s1, [])
        else
          -- powerup.collected = true (mutates the object held by the map)
          let pu2 := { powerup with collected := true }
          let s2 := updateRS s1 (some rm) fun r =>
            { r with powerups := insertA r.powerups powerupId pu2 }
          let branch : ServerState × List Emit :=
            if powerup.ptype = "health" then
              let maxHealth := jsOrQ player.vehicle.maxHealth 100
              let newHealth := min maxHealth (player.health + 40)
              let actualRestore := newHealth - player.health
              let p3 := { player with health := newHealth }
              let s3 := { s2 with players := insertA s2.players sid p3 }
              (s3, [⟨.toRoom (some rm),
                .playerDamaged sid newHealth (-actualRestore) "heal" sid⟩])
            else if powerup.ptype = "shield" then
              let p3 := { player with shieldUntil := now + 10000 }
              let s3 := { s2 with players := insertA s2.players sid p3 }
              (s3, [⟨.toSelf sid, .shieldActivated 10000 (now + 10000)⟩,
                    ⟨.toOthers (some rm) sid, .playerShielded sid (now + 10000)⟩])
            else (s2, [])
          let s4 := updateRS branch.1 (some rm) fun r =>
            { r with powerups := eraseA r.powerups powerupId }
          (s4, branch.2 ++ [⟨.toRoom (some rm),
            .powerupCollected powerupId sid powerup.ptype⟩])

/-- First registered `socket.on('chatMessage')` handler (trim + truncate,
relay to the rest of the room). It mutates no state, so it returns only the
emissions. -/
def chatHandler1 (s : ServerState) (sid : String) (message : Option String)
    (ts : String) : List Emit :=
  match lookupA s.players sid with
  | none => []
  | some player =>
    match message with
    | none => []
    | some m =>
      if m = "" then []      -- JS truthiness of `data.message`
      else
        let sanitizedMessage := trimTrunc m 200
        let playerName := jsOrS player.name ("Player_" ++ sliceFirst6 sid)
        if player.room.isSome then
          [⟨.toOthers player.room sid, .chatMsg sid playerName sanitizedMessage ts false⟩]
        else []

/-- Second registered `socket.on('chatMessage')` handler (commented
"for future use" in the source, but registered and therefore also run on
every chat event): length-checked, raw message, `io.to` (whole room,
sender included). -/
def chatHandler2 (s : ServerState) (sid : String) (message : Option String)
    (ts : String) : List Emit :=
  match lookupA s.players sid with
  | none => []
  | some player =>
    match message with
    | none => []
    | some m =>
      if m = "" then []
      else if m.length ≤ 200 then
        if player.room.isSome then
          [⟨.toRoom player.room, .chatMsg sid player.name m ts false⟩]
        else []
      else []

/-- What one inbound `chatMessage` event causes: socket.io runs every
registered listener in registration order, so both handlers fire. -/
def chatDispatch (s : ServerState) (sid : String) (message : Option String)
    (ts : String) : List Emit :=
  chatHandler1 s sid message ts ++ chatHandler2 s sid message ts

/-- The `socket.on('disconnect')` handler. -/
def disconnectHandler (s : ServerState) (sid : String) (ts : String) :
    ServerState × List Emit :=
  match lookupA s.players sid with
  | none => ({ s with players := eraseA s.players sid }, [])
  | some player =>
    match player.room with
    | none => ({ s with players := eraseA s.players sid }, [])
    | some rm =>
      let playerName := jsOrS player.name ("Player_" ++ sliceFirst6 sid)
      let e1 : Emit := ⟨.toOthers (some rm) sid,
        .chatMsg "system" "System" (playerName ++ " left the arena") ts true⟩
      let s2 :=
        match lookupA s.rooms rm with
        | none => s
        | some room =>
          if sid ∈ room then
            let newRoom := room.erase sid
            if newRoom.isEmpty then { s with rooms := eraseA s.rooms rm }
            else { s with rooms := insertA s.rooms rm newRoom }
          else s
      let e2 : Emit := ⟨.toOthers (some rm) sid, .playerLeft sid⟩
      ({ s2 with players := eraseA s2.players sid }, [e1, e2])

/-- `respawnPlayer(roomId, playerId)` (tick-driven). -/
def respawnPlayer (s : ServerState) (rm : Option String) (pid : String)
    (now : ℤ) (spawnPos : Pos) : ServerState × List Emit :=
  let s1 := ensureRS s rm
  let rs := getRS s1 rm
  match lookupA s1.players pid with
  | none => (s1, [])
  | some player =>
    if (lookupA rs.respawningPlayers pid).isSome then
      let p2 := { player with
        health := player.vehicle.maxHealth,
        position := spawnPos,
        invulnerableUntil := now + max spawnInvulnerableMs respawnDescentMs }
      let s2 := { s1 with players := insertA s1.players pid p2 }
      let s3 := updateRS s2 rm fun r =>
        { r with
          respawningPlayers := eraseA r.respawningPlayers pid,
          activePlayers := addS r.activePlayers pid }
      (s3, [⟨.toRoom rm,
        .playerRespawned pid p2.position p2.health (jsOrS player.vehicle.vid "balanced")⟩])
    else (s1, [])

/-- The body of `startRound`'s per-member `forEach`: reset health to the
vehicle max, move to a fresh spawn, grant entry invulnerability, mark
active, and create a leaderboard entry if missing. -/
def startRoundStep (roomId : String) (now : ℤ) (spawnOf : String → Pos)
    (acc : ServerState) (pid : String) : ServerState :=
  match lookupA acc.players pid with
  | none => acc
  | some player =>
    let p2 := { player with
      health := player.vehicle.maxHealth,
      position := spawnOf pid,
      invulnerableUntil := now + max spawnInvulnerableMs entryDescentMs }
    let acc2 := { acc with players := insertA acc.players pid p2 }
    updateRS acc2 (some roomId) fun rs =>
      { rs with
        activePlayers := addS rs.activePlayers pid,
        leaderboard :=
          if (lookupA rs.leaderboard pid).isSome then rs.leaderboard
          else insertA rs.leaderboard pid
            ⟨0, 0, 0, jsOrS player.name ("Player " ++ sliceLast4 pid)⟩ }

/-- `startRound(roomId)`.  Reaches `room.forEach` with `room` possibly
`undefined` (the rooms map has no entry): that line throws a `TypeError`,
modelled as `.error` carrying the state at the throw — note the room-state
mutations of the preceding lines have already happened. -/
def startRound (s : ServerState) (roomId : String) (now : ℤ)
    (spawnOf : String → Pos) : Except ServerState (ServerState × List Emit) :=
  let s1 := ensureRS s (some roomId)
  let room? := lookupA s1.rooms roomId
  let s2 := updateRS s1 (some roomId) fun rs =>
    { rs with
      phase := .playing,
      roundStartTime := some now,
      roundEndTime := some (now + roundDuration),
      activePlayers := [],
      respawningPlayers := [] }
  match room? with
  | none => .error s2
  | some room =>
    let s3 := room.foldl (startRoundStep roomId now spawnOf) s2
    let rsF := getRS s3 (some roomId)
    let snaps : Except Unit (List PlayerSnap) :=
      rsF.activePlayers.foldr (fun pid acc => do
        let l ← acc
        match lookupA s3.players pid with
        | none => .error ()   -- JS would throw reading `.position` of undefined
        | some p => .ok ((⟨pid, p.position, p.health, jsOrS p.vehicle.vid "balanced"⟩ :
            PlayerSnap) :: l)) (.ok [])
    match snaps with
    | .error _ => .error s3
    | .ok ps => .ok (s3,
        [⟨.toRoom (some roomId), .roundStarted (some (now + roundDuration)) ps⟩])

/-- `getPowerupDropInterval(playerCount)`. -/
def getPowerupDropInterval (playerCount : ℕ) : ℤ :=
  max 15000 (30000 - ((playerCount : ℤ) - 2) * 2500)

/-- The random choices made by `dropPowerup`. -/
structure DropOracle where
  newId : String
  typeIdx : Fin 4
  position : Pos

/-- `const powerupTypes = ['health', 'health', 'health', 'shield']`. -/
def powerupTypes : List String := ["health", "health", "health", "shield"]

/-- `dropPowerup(roomId)`. -/
def dropPowerup (s : ServerState) (rm : Option String) (now : ℤ)
    (o : DropOracle) : ServerState × List Emit :=
  let s1 := ensureRS s rm
  let rs := getRS s1 rm
  if rs.activePlayers.length < 2 then (s1, [])
  else
    let powerupType := powerupTypes.get
      ⟨o.typeIdx.val, by simp [powerupTypes]⟩
    let pu : Powerup :=
      { ptype := powerupType, position := o.position, dropTime := now,
        collected := false, landTime := now + 3000, despawnTime := now + 45000 }
    let s2 := updateRS s1 rm fun r =>
      { r with powerups := insertA r.powerups o.newId pu, lastPowerupDrop := now }
    (s2, [⟨.toRoom rm, .powerupDropped o.newId powerupType o.position (now + 3000)⟩])

/-- `managePowerupDrops(roomId)` (tick-driven). -/
def managePowerupDrops (s : ServerState) (rm : Option String) (now : ℤ)
    (o : DropOracle) : ServerState × List Emit :=
  let s1 := ensureRS s rm
  let rs := getRS s1 rm
  let playerCount := rs.activePlayers.length
  if rs.phase ≠ .playing ∨ playerCount < 2 then (s1, [])
  else
    let dropInterval := getPowerupDropInterval playerCount
    let timeSinceLastDrop := now - rs.lastPowerupDrop
    let step1 : ServerState × List Emit :=
      if timeSinceLastDrop ≥ dropInterval then dropPowerup s1 rm now o
      else (s1, [])
    let rs2 := getRS step1.1 rm
    let expired := rs2.powerups.filter fun pr =>
      decide (now > pr.2.despawnTime) || pr.2.collected
    let s3 := updateRS step1.1 rm fun r =>
      { r with powerups := r.powerups.filter fun pr =>
          !(decide (now > pr.2.despawnTime) || pr.2.collected) }
    (s3, step1.2 ++ expired.map fun pr => ⟨.toRoom rm, .powerupRemoved pr.1⟩)

/-- `generateBoostPads(roomId)`: two fixed pads, stored and returned. -/
def generateBoostPads (s : ServerState) (roomId : String) :
    ServerState × List BoostPad :=
  let pads : List BoostPad :=
    [⟨"boost_" ++ roomId ++ "_0", 60, 40, 1 / 2⟩,
     ⟨"boost_" ++ roomId ++ "_1", -50, -70, 21 / 10⟩]
  ({ s with boostPads := insertA s.boostPads roomId pads }, pads)

/-- `getBoostPads(roomId)`. -/
def getBoostPads (s : ServerState) (roomId : String) :
    ServerState × List BoostPad :=
  match lookupA s.boostPads roomId with
  | none => generateBoostPads s roomId
  | some pads => (s, pads)

/-- JS comparator `(a, b) => kills desc, then damageDealt desc, then deaths
asc` as a strict "a sorts before b" test (`comparator(a,b) < 0`). -/
def lbBefore (a b : String × Stats) : Bool :=
  if a.2.kills ≠ b.2.kills then decide (b.2.kills < a.2.kills)
  else if a.2.damageDealt ≠ b.2.damageDealt then decide (b.2.damageDealt < a.2.damageDealt)
  else decide (a.2.deaths < b.2.deaths)

/-- Stable insertion: place `x` before the first element that does not sort
strictly before it. -/
def sInsert {α : Type} (lt : α → α → Bool) (x : α) : List α → List α
  | [] => [x]
  | y :: ys => if lt y x then y :: sInsert lt x ys else x :: y :: ys

/-- A stable sort.  `Array.prototype.sort` is stable and `lbBefore` comes
from a total preorder, so every stable sort produces the same list. -/
def sortByJS {α : Type} (lt : α → α → Bool) : List α → List α
  | [] => []
  | x :: xs => sInsert lt x (sortByJS lt xs)

/-- Sorted leaderboard snapshot as built in the `roundEnd` branches. -/
def sortLB (lb : List (String × Stats)) : List (String × Stats) :=
  sortByJS lbBefore lb

/-- The leave-current-room step of the `joinRoom` handler: splice the
joining socket out of its previous room's member array (the emptied array
stays in the map — `joinRoom` never deletes a room). -/
def leaveRooms (s : ServerState) (sid : String) (player : Player) :
    List (String × List String) :=
  match player.room with
  | none => s.rooms
  | some prev =>
    match lookupA s.rooms prev with
    | none => s.rooms
    | some currentRoom =>
      if sid ∈ currentRoom then insertA s.rooms prev (currentRoom.erase sid)
      else s.rooms

/-- `const roomId = data.roomId || 'default'`. -/
def joinRoomId (roomIdArg : Option String) : String :=
  match roomIdArg with
  | none => "default"
  | some r => if r = "" then "default" else r

/-- The tail of the `joinRoom` handler, from the `startRound`-result check on:
fetch the boost pads, build the `roomJoined` / `playerSpawn` payloads, sync
the joiner with the room's current phase, and notify the others. -/
def joinRoomFinish (sid roomId : String) (newRoom : List String) (p2 : Player)
    (eSys : Emit) (afterStart : Except ServerState (ServerState × List Emit)) :
    Except ServerState (ServerState × List Emit) :=
  match afterStart with
  | .error st => .error st
  | .ok (s6, eStart) =>
    let gb := getBoostPads s6 roomId
    let s7 := gb.1
    let pads := gb.2
    let rs7 := getRS s7 (some roomId)
    -- the payloads below read the live player objects, i.e. after the
    -- possible startRound reset
    let joinSnaps : List JoinSnap := newRoom.map fun i =>
      match lookupA s7.players i with
      | some p => ⟨i, jsOrS p.name "Unknown", p.position, jsOrQ p.health 100,
          jsOrS p.vehicle.vid "balanced"⟩
      | none => ⟨i, "Unknown", ⟨0, 0, 0⟩, 100, "balanced"⟩
    let joined : RoomJoinedData :=
      { roomId := roomId, players := joinSnaps, phase := rs7.phase,
        roundEndTime := rs7.roundEndTime,
        waitingEndTime := match rs7.waitingStartTime with
          | some w => if w = 0 then none else some (w + waitingDuration)
          | none => none,
        boostPads := pads }
    let pNow := (lookupA s7.players sid).getD p2
    let eSpawn : Emit := ⟨.toSelf sid,
      .playerSpawn pNow.position pNow.health spawnInvulnerableMs⟩
    let phaseSync : ServerState × List Emit :=
      match rs7.phase with
      | .playing =>
        let s8 := updateRS s7 (some roomId) fun r =>
          { r with activePlayers := addS r.activePlayers sid }
        let rs8 := getRS s8 (some roomId)
        let payload := rs8.activePlayers.map fun i =>
          match lookupA s8.players i with
          | some p => (⟨i, p.position, p.health, jsOrS p.vehicle.vid "balanced"⟩ :
              PlayerSnap)
          | none => (⟨i, ⟨0, 0, 0⟩, 100, "balanced"⟩ : PlayerSnap)
        (s8, [⟨.toSelf sid, .roundStarted rs8.roundEndTime payload⟩])
      | .waiting => (s7, [⟨.toSelf sid,
          .waitingPhaseStarted ((rs7.waitingStartTime.getD 0) + waitingDuration)⟩])
      | .roundEnd =>
        let sorted := sortLB rs7.leaderboard
        (s7, [⟨.toSelf sid, .roundEnded sorted ((sorted.map fun pr => pr.2.kills).sum)
          ((sorted.map fun pr => pr.2.damageDealt).sum)⟩])
    let eNotify : Emit := ⟨.toOthers (some roomId) sid,
      .playerJoined sid pNow.name pNow.position pNow.health
        (jsOrS pNow.vehicle.vid "balanced")⟩
    .ok (phaseSync.1,
      eSys :: eStart ++ [⟨.toSelf sid, .roomJoined joined⟩, eSpawn] ++
        phaseSync.2 ++ [eNotify])

/-- The `socket.on('joinRoom')` handler.  `spawnPos` is this player's random
spawn, `spawnOf` feeds the nested `startRound` call.  The `Except` propagates
the `TypeError` a nested `startRound` would throw (unreachable here, since the
room entry has just been stored). -/
def joinRoomHandler (s : ServerState) (sid : String) (roomIdArg : Option String)
    (now : ℤ) (ts : String) (spawnPos : Pos) (spawnOf : String → Pos) :
    Except ServerState (ServerState × List Emit) :=
  let roomId := joinRoomId roomIdArg
  let room := (lookupA s.rooms roomId).getD []
  if room.length < maxPlayersPerRoom then
    match lookupA s.players sid with
    | none => .ok (s, [])
    | some player =>
      -- leave current room if any (splice out of the old member array)
      let s1 := { s with rooms := leaveRooms s sid player }
      -- join new room; `room` is an alias of the stored array, so a rejoin
      -- of the same room sees the splice: re-read after the leave step
      let roomNow := (lookupA s1.rooms roomId).getD []
      let newRoom := roomNow ++ [sid]
      let s2 := { s1 with rooms := insertA s1.rooms roomId newRoom }
      let p2 := { player with
        room := some roomId,
        position := spawnPos,
        invulnerableUntil := now + max spawnInvulnerableMs entryDescentMs }
      let s3 := { s2 with players := insertA s2.players sid p2 }
      let s4 := ensureRS s3 (some roomId)
      let fallbackName := "Player_" ++ sliceFirst6 sid
      let s5 := updateRS s4 (some roomId) fun rs =>
        if (lookupA rs.leaderboard sid).isSome then rs
        else { rs with leaderboard :=
                insertA rs.leaderboard sid ⟨0, 0, 0, jsOrS player.name fallbackName⟩ }
      let eSys : Emit := ⟨.toOthers (some roomId) sid,
        .chatMsg "system" "System" (jsOrS player.name fallbackName ++ " joined the arena") ts true⟩
      -- if this is the first player, start the round immediately
      let afterStart : Except ServerState (ServerState × List Emit) :=
        if newRoom.length = 1 then startRound s5 roomId now spawnOf
        else .ok (s5, [])
      joinRoomFinish sid roomId newRoom p2 eSys afterStart
  else .ok (s, [⟨.toSelf sid, .roomFull roomId⟩])


/-- State reached by a possibly-throwing procedure (for a thrown `TypeError`
the mutations made before the throw persist). -/
def stateOfE (e : Except ServerState (ServerState × List Emit)) : ServerState :=
  match e with
  | .error st => st
  | .ok (st, _) => st

/-- Whether a possibly-throwing procedure threw. -/
def isErr (e : Except ServerState (ServerState × List Emit)) : Bool :=
  match e with
  | .error _ => true
  | .ok _ => false

/-- Whether an emission list contains a `powerupDropped` broadcast. -/
def containsPowerupDropped (es : List Emit) : Bool :=
  es.any fun e =>
    match e.pay with
    | .powerupDropped _ _ _ _ => true
    | _ => false

/-- Whether a payload is a `chatMessage`. -/
def isChatPayload (p : Payload) : Bool :=
  match p with
  | .chatMsg _ _ _ _ _ => true
  | _ => false

/-- Whether one emission is delivered to connection `uid`: membership in a
socket.io room channel tracks the room member list (`socket.join`/`leave`
mirror the membership updates); `io.to(room)` reaches every member,
`socket.to(room)` every member except the sender. -/
def deliveredTo (s : ServerState) (a : Audience) (uid : String) : Bool :=
  match a with
  | .toRoom (some rm) => decide (uid ∈ (lookupA s.rooms rm).getD [])
  | .toRoom none => false
  | .toOthers (some rm) sender =>
      decide (uid ∈ (lookupA s.rooms rm).getD []) && decide (uid ≠ sender)
  | .toOthers none _ => false
  | .toSelf x => decide (uid = x)

/-- How many chat messages of an emission list reach connection `uid`. -/
def chatDeliveries (s : ServerState) (es : List Emit) (uid : String) : ℕ :=
  (es.filter fun e => isChatPayload e.pay && deliveredTo s e.aud uid).length

/-- The `damage` field of the leading `playerDamaged` broadcast, if any. -/
def dmgOfEmits (es : List Emit) : Option ℚ :=
  match es with
  | ⟨_, .playerDamaged _ _ d _ _⟩ :: _ => some d
  | _ => none

/-- The `health` field of the leading `playerDamaged` broadcast, if any. -/
def healthOfEmits (es : List Emit) : Option ℚ :=
  match es with
  | ⟨_, .playerDamaged _ h _ _ _⟩ :: _ => some h
  | _ => none

/-- The health invariant: every registered player's health is within
`[0, vehicle.maxHealth]` (all reachable vehicles — the connect default and
the three presets — have positive `maxHealth`, so positivity is carried in
the invariant). -/
def healthInv (s : ServerState) : Prop :=
  ∀ pr ∈ s.players, 0 ≤ pr.2.health ∧ pr.2.health ≤ pr.2.vehicle.maxHealth ∧
    0 < pr.2.vehicle.maxHealth

/-- The disjunction of the `playerDamaged` validation failures, exactly the
guards the handler checks (phase is read through `getRS`, the total read
matching `getRoomGameState`). -/
def damageValidationFails (s : ServerState) (sid : String) (data : DamageData)
    (now : ℤ) : Prop :=
  lookupA s.players sid = none ∨
  lookupA s.players data.targetPlayerId = none ∨
  data.damage = none ∨
  (∃ d, data.damage = some d ∧ d < 0) ∨
  (∃ a t, lookupA s.players sid = some a ∧
    lookupA s.players data.targetPlayerId = some t ∧ a.room ≠ t.room) ∨
  (∃ a, lookupA s.players sid = some a ∧ (getRS s a.room).phase ≠ .playing) ∨
  (∃ a, lookupA s.players sid = some a ∧ a.invulnerableUntil ≠ 0 ∧
    now < a.invulnerableUntil) ∨
  (∃ t, lookupA s.players data.targetPlayerId = some t ∧
    ((t.invulnerableUntil ≠ 0 ∧ now < t.invulnerableUntil) ∨
     (t.shieldUntil ≠ 0 ∧ now < t.shieldUntil)))

/-- Keys of an association list. -/
def keysA {K V : Type} (m : List (K × V)) : List K := m.map Prod.fst

/-- A fixed test position. -/
def posZ : Pos := ⟨0, 1, 0⟩

/-- Test player on the balanced vehicle, full health, in room `r`. -/
def pA : Player := ⟨"Alice", posZ, 0, 100, presetFor "balanced", some "r", 0, 0⟩

/-- Test player on the tank vehicle, full health, in room `r`. -/
def pB : Player := ⟨"Bob", posZ, 0, 130, presetFor "tank", some "r", 0, 0⟩

/-- Room state of test room `r`: mid-round with both players active. -/
def rsPlaying : RoomState :=
  { initRoomState with
    phase := .playing,
    roundStartTime := some 0, roundEndTime := some 240000,
    leaderboard := [("a", ⟨0, 0, 0, "Alice"⟩), ("b", ⟨0, 0, 0, "Bob"⟩)],
    activePlayers := ["a", "b"] }

/-- A reachable test server state: players `a`, `b` in room `r`, mid-round. -/
def sBase : ServerState :=
  ⟨[("a", pA), ("b", pB)], [("r", ["a", "b"])], [(some "r", rsPlaying)], []⟩

/-- Test state for C10: the tank target is at 20 health. -/
def sLow : ServerState :=
  ⟨[("a", pA), ("b", { pB with health := 20 })], [("r", ["a", "b"])],
    [(some "r", rsPlaying)], []⟩

/-- Room state of `r` holding an uncollected health powerup `pw1`. -/
def rsPow : RoomState :=
  { rsPlaying with powerups := [("pw1", ⟨"health", posZ, 0, false, 3000, 45000⟩)] }

/-- Test state for C8: an uncollected health powerup `pw1` sits in room `r`. -/
def sPow : ServerState :=
  ⟨[("a", { pA with health := 50 }), ("b", pB)], [("r", ["a", "b"])],
    [(some "r", rsPow)], []⟩

/-- Room state with only player `a` active. -/
def rsSoloA : RoomState :=
  { rsPlaying with leaderboard := [("a", ⟨0, 0, 0, "Alice"⟩)], activePlayers := ["a"] }

/-- Test state for C4: sole player `a` of room `r` is active mid-round. -/
def sSolo : ServerState :=
  ⟨[("a", pA)], [("r", ["a"])], [(some "r", rsSoloA)], []⟩

/-- Room state with only player `d1` active. -/
def rsSoloD : RoomState :=
  { rsPlaying with leaderboard := [("d1", ⟨0, 0, 0, "Dana"⟩)], activePlayers := ["d1"] }

/-- Test state for C9: sole player `d1` sits in the pre-created `default`
room (as after boot plus one join). -/
def sDefault : ServerState :=
  ⟨[("d1", { pA with name := "Dana", room := some "default" })],
    [("default", ["d1"])], [(some "default", rsSoloD)], []⟩

/-- Room state with only player `j1` active. -/
def rsSoloJ : RoomState :=
  { rsPlaying with leaderboard := [("j1", ⟨0, 0, 0, "Jo"⟩)], activePlayers := ["j1"] }

/-- Test state for C9 (leave step): `j1` alone in room `aaa`, room `bbb`
exists and is empty. -/
def sLeave : ServerState :=
  ⟨[("j1", { pA with name := "Jo", room := some "aaa" })],
    [("aaa", ["j1"]), ("bbb", [])], [(some "aaa", rsSoloJ)], []⟩

/-- Room state of `r` after a round ended with everyone gone. -/
def rsEnded : RoomState :=
  { rsPlaying with phase := .roundEnd, leaderboard := [], activePlayers := [] }

/-- Test state for C6: room `r` reached `roundEnd`, then every member
disconnected — the membership entry is gone while the per-room game state
(and the pending 20-second restart timer) remain. -/
def sGone : ServerState := ⟨[], [], [(some "r", rsEnded)], []⟩

/-- A damage event with a negative damage field. -/
def dNeg : DamageData := ⟨"b", some (-5), none⟩

/-- A `monster` collision event against player `b` (raw damage 999,
deliberately absurd — the formula must ignore it). -/
def dMon : DamageData := ⟨"b", some 999, some "monster"⟩

/-- A plain `side` collision event of 40 raw damage against player `b`. -/
def dSide : DamageData := ⟨"b", some 40, some "side"⟩

end BattleCars

namespace BattleCars

theorem lookupA_insertA {K V : Type} [DecidableEq K] (m : List (K × V))
    (k k2 : K) (v : V) :
    lookupA (insertA m k v) k2 = if k = k2 then some v else lookupA m k2 := by
  induction m with
  | nil => simp [insertA, lookupA]
  | cons hd tl ih =>
    by_cases h1 : hd.1 = k
    · simp only [insertA, lookupA, h1]
      by_cases h2 : k = k2 <;> simp [h2, lookupA]
    · simp only [insertA, lookupA, h1, if_false]
      by_cases h2 : hd.1 = k2
      · have : ¬ k = k2 := fun he => h1 (he ▸ h2)
        simp [lookupA, h2, this]
      · simp [lookupA, h2, ih]

theorem mem_insertA {K V : Type} [DecidableEq K] {m : List (K × V)}
    {k : K} {v : V} {pr : K × V} (h : pr ∈ insertA m k v) :
    pr ∈ m ∨ pr = (k, v) := by
  induction m with
  | nil => simp [insertA] at h; simp [h]
  | cons hd tl ih =>
    by_cases h1 : hd.1 = k
    · simp only [insertA, h1, if_true] at h
      rcases List.mem_cons.mp h with h | h
      · right; simpa [h1] using h
      · left; exact List.mem_cons_of_mem _ h
    · simp only [insertA, h1, if_false] at h
      rcases List.mem_cons.mp h with h | h
      · left; simp [h]
      · rcases ih h with h | h
        · left; exact List.mem_cons_of_mem _ h
        · right; exact h

theorem lookupA_none_of_not_mem_keysA {K V : Type} [DecidableEq K]
    {m : List (K × V)} {k : K} (h : k ∉ keysA m) : lookupA m k = none := by
  induction m with
  | nil => rfl
  | cons hd tl ih =>
    simp only [keysA, List.map_cons, List.mem_cons, not_or] at h
    have h1 : ¬ hd.1 = k := fun he => h.1 he.symm
    simp only [lookupA, h1, if_false]
    exact ih h.2

theorem lookupA_mem {K V : Type} [DecidableEq K] {m : List (K × V)}
    {k : K} {v : V} (h : lookupA m k = some v) : (k, v) ∈ m := by
  induction m with
  | nil => simp [lookupA] at h
  | cons hd tl ih =>
    by_cases h1 : hd.1 = k
    · simp only [lookupA, h1, if_true, Option.some.injEq] at h
      have he : (k, v) = hd := by
        cases hd
        simp only [Prod.mk.injEq]
        exact ⟨h1.symm, h.symm⟩
      exact List.mem_cons.mpr (Or.inl he)
    · simp only [lookupA, h1, if_false] at h
      exact List.mem_cons_of_mem _ (ih h)

theorem keysA_insertA {K V : Type} [DecidableEq K] (m : List (K × V))
    (k : K) (v : V) :
    keysA (insertA m k v) = if k ∈ keysA m then keysA m else keysA m ++ [k] := by
  induction m with
  | nil => simp [insertA, keysA]
  | cons hd tl ih =>
    by_cases h1 : hd.1 = k
    · simp [insertA, keysA, h1]
    · have h2 : ¬ k = hd.1 := fun he => h1 he.symm
      simp only [insertA, h1, if_false, keysA, List.map_cons] at ih ⊢
      rw [ih]
      by_cases h3 : k ∈ List.map Prod.fst tl
      · simp [h3, h2]
      · simp [h3, h2]

theorem keysA_nodup_insertA {K V : Type} [DecidableEq K] {m : List (K × V)}
    (k : K) (v : V) (h : (keysA m).Nodup) : (keysA (insertA m k v)).Nodup := by
  rw [keysA_insertA]
  by_cases h3 : k ∈ keysA m
  · simpa [h3] using h
  · simpa [h3, List.nodup_append] using h

theorem lookupA_eraseA_self {K V : Type} [DecidableEq K] {m : List (K × V)}
    (k : K) (h : (keysA m).Nodup) : lookupA (eraseA m k) k = none := by
  induction m with
  | nil => simp [eraseA, lookupA]
  | cons hd tl ih =>
    simp only [keysA, List.map_cons, List.nodup_cons] at h
    by_cases h1 : hd.1 = k
    · simp only [eraseA, h1, if_true]
      exact lookupA_none_of_not_mem_keysA (fun hm => h.1 (h1 ▸ hm))
    · simp only [eraseA, h1, if_false, lookupA]
      exact ih h.2

theorem ensureRS_players (s : ServerState) (rm : Option String) :
    (ensureRS s rm).players = s.players := by
  unfold ensureRS; split <;> rfl

theorem ensureRS_rooms (s : ServerState) (rm : Option String) :
    (ensureRS s rm).rooms = s.rooms := by
  unfold ensureRS; split <;> rfl

theorem ensureRS_of_some {s : ServerState} {rm : Option String} {rs : RoomState}
    (h : lookupA s.gameStates rm = some rs) : ensureRS s rm = s := by
  unfold ensureRS; simp [h]

theorem getRS_ensureRS (s : ServerState) (rm rm2 : Option String) :
    getRS (ensureRS s rm) rm2 = getRS s rm2 := by
  unfold ensureRS getRS
  cases hl : lookupA s.gameStates rm with
  | some rs => simp
  | none =>
    simp only [Option.isSome_none, Bool.false_eq_true, if_false]
    show (lookupA (insertA s.gameStates rm initRoomState) rm2).getD initRoomState =
      (lookupA s.gameStates rm2).getD initRoomState
    rw [lookupA_insertA]
    by_cases h2 : rm = rm2
    · subst h2; simp [hl]
    · simp [h2]

theorem updateRS_players (s : ServerState) (rm : Option String)
    (f : RoomState → RoomState) : (updateRS s rm f).players = s.players := by
  unfold updateRS; split <;> rfl

theorem updateRS_rooms (s : ServerState) (rm : Option String)
    (f : RoomState → RoomState) : (updateRS s rm f).rooms = s.rooms := by
  unfold updateRS; split <;> rfl

theorem lookupA_updateRS_self {s : ServerState} {rm : Option String}
    {rs : RoomState} (f : RoomState → RoomState)
    (h : lookupA s.gameStates rm = some rs) :
    lookupA (updateRS s rm f).gameStates rm = some (f rs) := by
  unfold updateRS
  rw [h]
  show lookupA (insertA s.gameStates rm (f rs)) rm = some (f rs)
  rw [lookupA_insertA]
  simp

theorem getRS_updateRS_self {s : ServerState} {rm : Option String}
    {rs : RoomState} (f : RoomState → RoomState)
    (h : lookupA s.gameStates rm = some rs) :
    getRS (updateRS s rm f) rm = f rs := by
  unfold getRS
  rw [lookupA_updateRS_self f h]
  rfl

theorem getRS_updateRS_ne {s : ServerState} {rm rm2 : Option String}
    (f : RoomState → RoomState) (h : rm ≠ rm2) :
    getRS (updateRS s rm f) rm2 = getRS s rm2 := by
  unfold updateRS getRS
  cases hl : lookupA s.gameStates rm with
  | none => rfl
  | some rs =>
    show (lookupA (insertA s.gameStates rm (f rs)) rm2).getD initRoomState =
      (lookupA s.gameStates rm2).getD initRoomState
    rw [lookupA_insertA]
    simp [h]

theorem lookupA_ensureRS_self (s : ServerState) (rm : Option String) :
    lookupA (ensureRS s rm).gameStates rm = some (getRS s rm) := by
  unfold ensureRS getRS
  cases hl : lookupA s.gameStates rm with
  | some rs => simp [hl]
  | none =>
    simp only [Option.isSome_none, Bool.false_eq_true, if_false]
    show lookupA (insertA s.gameStates rm initRoomState) rm = _
    rw [lookupA_insertA]
    simp [hl]

theorem ensureRS_ensureRS (s : ServerState) (rm : Option String) :
    ensureRS (ensureRS s rm) rm = ensureRS s rm :=
  ensureRS_of_some (lookupA_ensureRS_self s rm)

theorem containsPowerupDropped_append (a b : List Emit) :
    containsPowerupDropped (a ++ b) =
      (containsPowerupDropped a || containsPowerupDropped b) := by
  simp [containsPowerupDropped, List.any_append]

theorem containsPowerupDropped_removedMap (rm : Option String)
    (l : List (String × Powerup)) :
    containsPowerupDropped
      (l.map fun pr => ⟨Audience.toRoom rm, Payload.powerupRemoved pr.1⟩) = false := by
  induction l with
  | nil => rfl
  | cons hd tl ih => simpa [containsPowerupDropped] using ih

/-- C7: on a tick, `managePowerupDrops` spawns a powerup exactly when the
room phase is `playing`, it has at least two active players, and at least
`getPowerupDropInterval` (= `max(15000, 30000 - (count - 2)*2500)`)
milliseconds have passed since `lastPowerupDrop`; in particular a room with
fewer than two active players never spawns. -/
theorem powerup_spawn_iff (s : ServerState) (rm : Option String) (now : ℤ)
    (o : DropOracle) :
    containsPowerupDropped (managePowerupDrops s rm now o).2 = true ↔
      ((getRS s rm).phase = Phase.playing ∧
       2 ≤ (getRS s rm).activePlayers.length ∧
       getPowerupDropInterval (getRS s rm).activePlayers.length ≤
         now - (getRS s rm).lastPowerupDrop) := by
  by_cases h1 : (getRS s rm).phase = Phase.playing
  · by_cases h2 : 2 ≤ (getRS s rm).activePlayers.length
    · have h2n : ¬ (getRS s rm).activePlayers.length < 2 := by omega
      by_cases h3 : getPowerupDropInterval (getRS s rm).activePlayers.length ≤
          now - (getRS s rm).lastPowerupDrop
      · simp only [managePowerupDrops, getRS_ensureRS, h1, h2n, ne_eq,
          not_true_eq_false, false_or, if_false, ge_iff_le, h3, if_true,
          dropPowerup, ensureRS_ensureRS]
        simp only [containsPowerupDropped_append, h2n, if_false,
          containsPowerupDropped_removedMap, Bool.or_false]
        simp [containsPowerupDropped, h1, h2, h3]
      · simp only [managePowerupDrops, getRS_ensureRS, h1, h2n, ne_eq,
          not_true_eq_false, false_or, if_false, ge_iff_le, h3]
        simp [containsPowerupDropped_append, containsPowerupDropped_removedMap,
          containsPowerupDropped, h3]
    · have h2n : (getRS s rm).activePlayers.length < 2 := by omega
      simp [managePowerupDrops, getRS_ensureRS, h2n, containsPowerupDropped]
  · simp [managePowerupDrops, getRS_ensureRS, h1, containsPowerupDropped]


/-- C1: if any validation step of the damage handler fails (missing
attacker/target record, missing or negative damage, room mismatch, phase not
`playing`, attacker invulnerable, or target invulnerable/shielded), the
handler mutates nothing observable — the player registry, the room
membership map, and every room's game state (read as `getRoomGameState`
reads it) are unchanged — and nothing is broadcast.  (On some failure paths
`getRoomGameState` may have materialised a fresh default room state; reading
through `getRS` it is indistinguishable from the absent one.) -/
theorem damage_validation_no_side_effects
    (s : ServerState) (sid : String) (data : DamageData) (now : ℤ)
    (h : damageValidationFails s sid data now) :
    (playerDamagedHandler s sid data now).1.players = s.players ∧
    (playerDamagedHandler s sid data now).1.rooms = s.rooms ∧
    (∀ rm, getRS (playerDamagedHandler s sid data now).1 rm = getRS s rm) ∧
    (playerDamagedHandler s sid data now).2 = [] := by
  simp only [playerDamagedHandler]
  cases hA : lookupA s.players sid with
  | none => simp
  | some a =>
    cases hT : lookupA s.players data.targetPlayerId with
    | none => simp
    | some t =>
      cases hD : data.damage with
      | none => simp
      | some d =>
        by_cases h1 : d < 0
        · simp [h1]
        · by_cases h2 : a.room ≠ t.room
          · simp [h1, h2]
          · by_cases h3 : (getRS s a.room).phase ≠ Phase.playing
            · simp [h1, h2, h3, ensureRS_players, ensureRS_rooms, getRS_ensureRS]
            · by_cases h4 : a.invulnerableUntil ≠ 0 ∧ now < a.invulnerableUntil
              · simp [h1, h2, h3, h4, ensureRS_players, ensureRS_rooms,
                  getRS_ensureRS]
              · by_cases h5 : t.invulnerableUntil ≠ 0 ∧ now < t.invulnerableUntil
                · simp [h1, h2, h3, h4, h5, ensureRS_players, ensureRS_rooms,
                    getRS_ensureRS]
                · by_cases h6 : t.shieldUntil ≠ 0 ∧ now < t.shieldUntil
                  · simp [h1, h2, h3, h4, h5, h6, ensureRS_players,
                      ensureRS_rooms, getRS_ensureRS]
                  · exfalso
                    rcases h with hx | hx | hx | hx | hx | hx | hx | hx
                    · simp [hA] at hx
                    · simp [hT] at hx
                    · simp [hD] at hx
                    · obtain ⟨d2, hd2, hlt⟩ := hx
                      rw [hD] at hd2
                      cases hd2
                      exact h1 hlt
                    · obtain ⟨a2, t2, ha2, ht2, hne⟩ := hx
                      rw [hA] at ha2
                      rw [hT] at ht2
                      cases ha2
                      cases ht2
                      exact h2 hne
                    · obtain ⟨a2, ha2, hph⟩ := hx
                      rw [hA] at ha2
                      cases ha2
                      exact h3 hph
                    · obtain ⟨a2, ha2, hiv⟩ := hx
                      rw [hA] at ha2
                      cases ha2
                      exact h4 hiv
                    · obtain ⟨t2, ht2, hiv⟩ := hx
                      rw [hT] at ht2
                      cases ht2
                      rcases hiv with hiv | hiv
                      · exact h5 hiv
                      · exact h6 hiv


theorem pdh_valid
    {s : ServerState} {sid : String} {data : DamageData} {now : ℤ}
    {a t : Player} {d : ℚ}
    (hA : lookupA s.players sid = some a)
    (hT : lookupA s.players data.targetPlayerId = some t)
    (hD : data.damage = some d) (hd0 : ¬ d < 0)
    (hroom : a.room = t.room)
    (hph : (getRS s a.room).phase = Phase.playing)
    (hai : ¬ (a.invulnerableUntil ≠ 0 ∧ now < a.invulnerableUntil))
    (hti : ¬ (t.invulnerableUntil ≠ 0 ∧ now < t.invulnerableUntil))
    (hts : ¬ (t.shieldUntil ≠ 0 ∧ now < t.shieldUntil)) :
    playerDamagedHandler s sid data now =
      applyDamageCore (ensureRS s a.room) sid data.targetPlayerId
        data.collisionType d now a t := by
  have hroom2 : ¬ a.room ≠ t.room := fun hne => hne hroom
  have hph2 : ¬ ((getRS (ensureRS s a.room) a.room).phase ≠ Phase.playing) := by
    rw [getRS_ensureRS]
    simp [hph]
  simp only [playerDamagedHandler, hA, hT, hD]
  simp [hd0, hroom2, hph2, hai, hti, hts]

/-- Witness for C1: a concrete event carrying a negative damage field leaves
the test state untouched and broadcasts nothing. -/
theorem damage_validation_no_side_effects_witness :
    (playerDamagedHandler sBase "a" dNeg 1000).1.players = sBase.players ∧
    (playerDamagedHandler sBase "a" dNeg 1000).1.rooms = sBase.rooms ∧
    (∀ rm, getRS (playerDamagedHandler sBase "a" dNeg 1000).1 rm = getRS sBase rm) ∧
    (playerDamagedHandler sBase "a" dNeg 1000).2 = [] :=
  damage_validation_no_side_effects sBase "a" dNeg 1000
    (Or.inr (Or.inr (Or.inr (Or.inl ⟨-5, rfl, by norm_num⟩))))

theorem dmgOfEmits_ite (c : Prop) [Decidable c] (x y : ServerState × List Emit)
    (v : Option ℚ) (hx : dmgOfEmits x.2 = v) (hy : dmgOfEmits y.2 = v) :
    dmgOfEmits (if c then x else y).2 = v := by
  split
  · exact hx
  · exact hy

/-- C2: for every valid damage event, the applied damage (as broadcast, and
as subtracted from the target's health) is: for a `monster` collision,
`round(targetMaxHealth · 0.20)` — a formula free of the raw damage field and
of both vehicle multipliers — and otherwise
`max(0, round(raw · attackerDealtMult · targetTakenMult))`. -/
theorem damage_formula
    (s : ServerState) (sid : String) (data : DamageData) (now : ℤ)
    (a t : Player) (d : ℚ)
    (hA : lookupA s.players sid = some a)
    (hT : lookupA s.players data.targetPlayerId = some t)
    (hD : data.damage = some d) (hd0 : ¬ d < 0)
    (hroom : a.room = t.room)
    (hph : (getRS s a.room).phase = Phase.playing)
    (hai : ¬ (a.invulnerableUntil ≠ 0 ∧ now < a.invulnerableUntil))
    (hti : ¬ (t.invulnerableUntil ≠ 0 ∧ now < t.invulnerableUntil))
    (hts : ¬ (t.shieldUntil ≠ 0 ∧ now < t.shieldUntil))
    (hmx : 0 ≤ t.vehicle.maxHealth) :
    (data.collisionType.getD "" = "monster" →
      dmgOfEmits (playerDamagedHandler s sid data now).2 =
        some ((roundJS (t.vehicle.maxHealth * (20 / 100)) : ℤ) : ℚ) ∧
      lookupA (playerDamagedHandler s sid data now).1.players data.targetPlayerId =
        some { t with
               health := max 0 (t.health -
                 ((roundJS (t.vehicle.maxHealth * (20 / 100)) : ℤ) : ℚ)) }) ∧
    (data.collisionType.getD "" ≠ "monster" →
      dmgOfEmits (playerDamagedHandler s sid data now).2 =
        some ((max 0 (roundJS (d * a.vehicle.damageDealtMultiplier *
          t.vehicle.damageTakenMultiplier)) : ℤ) : ℚ)) := by
  rw [pdh_valid hA hT hD hd0 hroom hph hai hti hts]
  constructor
  · intro hm
    have h5 : (0 : ℚ) ≤ t.vehicle.maxHealth * (20 / 100) :=
      mul_nonneg hmx (by norm_num)
    have hr : (0 : ℤ) ≤ roundJS (t.vehicle.maxHealth * (20 / 100)) := by
      unfold roundJS
      rw [Int.le_floor]
      push_cast
      linarith
    have hmax : max (0 : ℤ) (roundJS (t.vehicle.maxHealth * (20 / 100))) =
        roundJS (t.vehicle.maxHealth * (20 / 100)) := max_eq_right hr
    simp only [applyDamageCore, hm, hmax, reduceIte, ne_eq, not_true_eq_false,
      if_false]
    constructor
    · exact dmgOfEmits_ite _ _ _ _ rfl rfl
    · split <;>
        simp [updateRS_players, ensureRS_players, lookupA_insertA]
  · intro hnm
    simp only [applyDamageCore, hnm, ne_eq, not_false_eq_true, if_true,
      if_false]
    exact dmgOfEmits_ite _ _ _ _ rfl rfl

/-- Witness for C2: against the tank target (maxHealth 130) a monster event
with absurd raw damage 999 deals exactly 26; a 40-raw side hit from the
balanced attacker against the tank (takenMult 0.8) deals round(32) = 32. -/
theorem damage_formula_witness :
    dmgOfEmits (playerDamagedHandler sBase "a" dMon 5000).2 = some 26 ∧
    dmgOfEmits (playerDamagedHandler sBase "a" dSide 5000).2 = some 32 := by
  have hmx : (0 : ℚ) ≤ pB.vehicle.maxHealth := by
    rw [show pB.vehicle.maxHealth = (130 : ℚ) from rfl]
    norm_num
  constructor
  · have h := damage_formula sBase "a" dMon 5000 pA pB 999 rfl rfl
      rfl (by norm_num) rfl rfl (by decide) (by decide) (by decide) hmx
    rw [(h.1 rfl).1]
    rw [show pB.vehicle.maxHealth = (130 : ℚ) from rfl]
    norm_num [roundJS, Int.floor_eq_iff]
  · have h := damage_formula sBase "a" dSide 5000 pA pB 40 rfl rfl
      rfl (by norm_num) rfl rfl (by decide) (by decide) (by decide) hmx
    rw [h.2 (by decide)]
    rw [show pA.vehicle.damageDealtMultiplier = (1 : ℚ) from rfl,
        show pB.vehicle.damageTakenMultiplier = (8 / 10 : ℚ) from rfl]
    norm_num [roundJS, Int.floor_eq_iff]

theorem lookupA_updStats (lb : List (String × Stats)) (k k2 : String)
    (f : Stats → Stats) :
    lookupA (updStats lb k f) k2 =
      if k = k2 then (lookupA lb k).map f else lookupA lb k2 := by
  unfold updStats
  cases hl : lookupA lb k with
  | none =>
    by_cases he : k = k2
    · subst he
      simp [hl]
    · simp [he]
  | some st =>
    rw [lookupA_insertA]
    by_cases he : k = k2 <;> simp [he]

/-- C10: a valid `monster` damage event that brings the target to 0 or below
still increments the kills counter of the leaderboard entry of the client
that sent the event (and the target entry's deaths counter), while crediting
no `damageDealt` to the sender; the `playerDamaged` broadcast names the
attacker `"monster"` (the follow-up `playerDestroyed` names the real
sender). -/
theorem monster_kill_credits_sender
    (s : ServerState) (sid : String) (data : DamageData) (now : ℤ)
    (a t : Player) (d : ℚ) (rs0 : RoomState) (astats tstats : Stats)
    (hA : lookupA s.players sid = some a)
    (hT : lookupA s.players data.targetPlayerId = some t)
    (hD : data.damage = some d) (hd0 : ¬ d < 0)
    (hroom : a.room = t.room)
    (hGS : lookupA s.gameStates a.room = some rs0)
    (hph : rs0.phase = Phase.playing)
    (hai : ¬ (a.invulnerableUntil ≠ 0 ∧ now < a.invulnerableUntil))
    (hti : ¬ (t.invulnerableUntil ≠ 0 ∧ now < t.invulnerableUntil))
    (hts : ¬ (t.shieldUntil ≠ 0 ∧ now < t.shieldUntil))
    (hm : data.collisionType.getD "" = "monster")
    (hALB : lookupA rs0.leaderboard sid = some astats)
    (hTLB : lookupA rs0.leaderboard data.targetPlayerId = some tstats)
    (hkill : t.health ≤
      ((max 0 (roundJS (t.vehicle.maxHealth * (20 / 100))) : ℤ) : ℚ)) :
    ((lookupA (getRS (playerDamagedHandler s sid data now).1 a.room).leaderboard
        sid).map Stats.kills) = some (astats.kills + 1) ∧
    ((lookupA (getRS (playerDamagedHandler s sid data now).1 a.room).leaderboard
        sid).map Stats.damageDealt) = some astats.damageDealt ∧
    ((lookupA (getRS (playerDamagedHandler s sid data now).1 a.room).leaderboard
        data.targetPlayerId).map Stats.deaths) = some (tstats.deaths + 1) ∧
    (playerDamagedHandler s sid data now).2 =
      [⟨Audience.toRoom a.room,
        Payload.playerDamaged data.targetPlayerId
          (max 0 (t.health -
            ((max 0 (roundJS (t.vehicle.maxHealth * (20 / 100))) : ℤ) : ℚ)))
          ((max 0 (roundJS (t.vehicle.maxHealth * (20 / 100))) : ℤ) : ℚ)
          "monster" "monster"⟩,
       ⟨Audience.toRoom a.room,
        Payload.playerDestroyed data.targetPlayerId (now + respawnDuration) sid⟩] := by
  have hphase : (getRS s a.room).phase = Phase.playing := by
    unfold getRS
    rw [hGS]
    exact hph
  rw [pdh_valid hA hT hD hd0 hroom hphase hai hti hts]
  have hs1 : ensureRS s a.room = s := ensureRS_of_some hGS
  have hcond : max 0 (t.health -
      ((max 0 (roundJS (t.vehicle.maxHealth * (20 / 100))) : ℤ) : ℚ)) ≤ 0 := by
    rw [max_le_iff]
    exact ⟨le_refl 0, sub_nonpos.mpr hkill⟩
  simp only [applyDamageCore, hm, reduceIte, ne_eq, not_true_eq_false, if_false,
    hs1, hcond, if_true]
  simp only [updateRS, getRS, hGS, lookupA_insertA, eq_self_iff_true, if_true,
    Option.getD_some]
  refine ⟨?_, ?_, ?_, by simp [jsOrS]⟩ <;>
  · by_cases he : data.targetPlayerId = sid
    · subst he
      have hst : astats = tstats := by
        rw [hALB] at hTLB
        exact Option.some.inj hTLB
      simp [lookupA_updStats, hALB, hst]
    · have hne : ¬ sid = data.targetPlayerId := fun h2 => he h2.symm
      simp [lookupA_updStats, hALB, hTLB, he, hne]


/-- Witness for C10: in `sLow` the tank target sits at 20 health; a monster
event sent by client `a` kills it and `a` is credited the kill. -/
theorem monster_kill_credits_sender_witness :
    ((lookupA (getRS (playerDamagedHandler sLow "a" dMon 5000).1 pA.room).leaderboard
        "a").map Stats.kills) = some 1 ∧
    ((lookupA (getRS (playerDamagedHandler sLow "a" dMon 5000).1 pA.room).leaderboard
        "a").map Stats.damageDealt) = some 0 ∧
    ((lookupA (getRS (playerDamagedHandler sLow "a" dMon 5000).1 pA.room).leaderboard
        "b").map Stats.deaths) = some 1 := by
  have hround : roundJS ((130 : ℚ) * (20 / 100)) = 26 := by
    norm_num [roundJS, Int.floor_eq_iff]
  have h := monster_kill_credits_sender sLow "a" dMon 5000 pA
    ({ pB with health := 20 }) 999 rsPlaying ⟨0, 0, 0, "Alice"⟩ ⟨0, 0, 0, "Bob"⟩
    rfl rfl rfl (by norm_num) rfl rfl rfl (by decide) (by decide) (by decide)
    rfl rfl rfl
    (by rw [show ({ pB with health := 20 } : Player).vehicle.maxHealth = (130 : ℚ)
          from rfl, hround]
        norm_num)
  exact ⟨by simpa using h.1, by simpa using h.2.1, by simpa using h.2.2.1⟩

theorem healthInv_eq {s2 s : ServerState} (h : s2.players = s.players)
    (hinv : healthInv s) : healthInv s2 := by
  intro pr hpr
  exact hinv pr (h ▸ hpr)

theorem presetFor_bounds (i : String) :
    0 < (presetFor i).maxHealth := by
  unfold presetFor
  split
  · norm_num
  · split <;> norm_num

/-- Shape of the player registry after a damage event: either untouched, or
one registered player's health replaced by `max 0 (health − damage)` for a
non-negative integer damage. -/
theorem pdh_players_shape (s : ServerState) (sid : String) (data : DamageData)
    (now : ℤ) :
    (playerDamagedHandler s sid data now).1.players = s.players ∨
    ∃ t : Player, lookupA s.players data.targetPlayerId = some t ∧
      ∃ dmg : ℤ, 0 ≤ dmg ∧
        (playerDamagedHandler s sid data now).1.players =
          insertA s.players data.targetPlayerId
            { t with health := max 0 (t.health - (dmg : ℚ)) } := by
  simp only [playerDamagedHandler]
  cases hA : lookupA s.players sid with
  | none => left; rfl
  | some a =>
    cases hT : lookupA s.players data.targetPlayerId with
    | none => left; rfl
    | some t =>
      cases hD : data.damage with
      | none => left; rfl
      | some d =>
        by_cases h1 : d < 0
        · left; simp [h1]
        · by_cases h2 : a.room ≠ t.room
          · left; simp [h1, h2]
          · by_cases h3 : (getRS s a.room).phase ≠ Phase.playing
            · left; simp [h1, h2, h3, ensureRS_players, getRS_ensureRS]
            · by_cases h4 : a.invulnerableUntil ≠ 0 ∧ now < a.invulnerableUntil
              · left; simp [h1, h2, h3, h4, ensureRS_players, getRS_ensureRS]
              · by_cases h5 : t.invulnerableUntil ≠ 0 ∧ now < t.invulnerableUntil
                · left
                  simp [h1, h2, h3, h4, h5, ensureRS_players, getRS_ensureRS]
                · by_cases h6 : t.shieldUntil ≠ 0 ∧ now < t.shieldUntil
                  · left
                    simp [h1, h2, h3, h4, h5, h6, ensureRS_players, getRS_ensureRS]
                  · right
                    refine ⟨t, rfl, ?_⟩
                    refine ⟨if data.collisionType.getD "" = "monster" then
                      max 0 (roundJS (t.vehicle.maxHealth * (20 / 100)))
                      else max 0 (roundJS (d * a.vehicle.damageDealtMultiplier *
                        t.vehicle.damageTakenMultiplier)), ?_, ?_⟩
                    · split <;> exact le_max_left 0 _
                    · simp only [ne_eq, h1, h2, h3, h4, h5, h6, not_false_eq_true,
                        if_true, if_false, getRS_ensureRS, not_true_eq_false,
                        applyDamageCore]
                      split <;>
                        split <;>
                          simp [updateRS_players, ensureRS_players]


theorem healthInv_insert_case {s2 s : ServerState} {k : String} {p2 : Player}
    (hs : s2.players = insertA s.players k p2) (hinv : healthInv s)
    (h0 : 0 ≤ p2.health) (h1 : p2.health ≤ p2.vehicle.maxHealth)
    (h2 : 0 < p2.vehicle.maxHealth) : healthInv s2 := by
  intro pr hpr
  rw [hs] at hpr
  rcases mem_insertA hpr with h | h
  · exact hinv pr h
  · rw [h]
    exact ⟨h0, h1, h2⟩

theorem vehicle_players_shape (s : ServerState) (sid : String)
    (vid : Option String) :
    (vehicleSelectedHandler s sid vid).1.players = s.players ∨
    ∃ p i, lookupA s.players sid = some p ∧
      (vehicleSelectedHandler s sid vid).1.players =
        insertA s.players sid
          { p with vehicle := presetFor i,
                   health := min p.health (presetFor i).maxHealth } := by
  simp only [vehicleSelectedHandler]
  cases hA : lookupA s.players sid with
  | none => left; rfl
  | some p => exact Or.inr ⟨p, _, rfl, rfl⟩

theorem collect_players_shape (s : ServerState) (sid pwid : String) (now : ℤ) :
    (collectPowerupHandler s sid pwid now).1.players = s.players ∨
    (∃ p, lookupA s.players sid = some p ∧
      (collectPowerupHandler s sid pwid now).1.players =
        insertA s.players sid
          { p with health := min (jsOrQ p.vehicle.maxHealth 100) (p.health + 40) }) ∨
    (∃ p, lookupA s.players sid = some p ∧
      (collectPowerupHandler s sid pwid now).1.players =
        insertA s.players sid { p with shieldUntil := now + 10000 }) := by
  cases hA : lookupA s.players sid with
  | none => left; simp [collectPowerupHandler, hA]
  | some p =>
    cases hrm : p.room with
    | none => left; simp [collectPowerupHandler, hA, hrm]
    | some rm =>
      cases hpw : lookupA (getRS (ensureRS s (some rm)) (some rm)).powerups pwid with
      | none =>
        left
        simp [collectPowerupHandler, hA, hrm, hpw, ensureRS_players]
      | some pu =>
        by_cases hc : pu.collected
        · left
          simp [collectPowerupHandler, hA, hrm, hpw, hc, ensureRS_players]
        · by_cases hh : pu.ptype = "health"
          · refine Or.inr (Or.inl ⟨p, rfl, ?_⟩)
            simp [collectPowerupHandler, hA, hrm, hpw, hc, hh,
              updateRS_players, ensureRS_players]
          · by_cases hs2 : pu.ptype = "shield"
            · refine Or.inr (Or.inr ⟨p, rfl, ?_⟩)
              simp [collectPowerupHandler, hA, hrm, hpw, hc, hh, hs2,
                updateRS_players, ensureRS_players]
            · left
              simp [collectPowerupHandler, hA, hrm, hpw, hc, hh, hs2,
                updateRS_players, ensureRS_players]

theorem respawn_players_shape (s : ServerState) (rm : Option String)
    (pid : String) (now : ℤ) (pos2 : Pos) :
    (respawnPlayer s rm pid now pos2).1.players = s.players ∨
    ∃ p, lookupA s.players pid = some p ∧
      (respawnPlayer s rm pid now pos2).1.players =
        insertA s.players pid
          { p with health := p.vehicle.maxHealth, position := pos2,
                   invulnerableUntil := now + max spawnInvulnerableMs respawnDescentMs } := by
  simp only [respawnPlayer]
  cases hA : lookupA (ensureRS s rm).players pid with
  | none => left; exact ensureRS_players s rm
  | some player =>
    by_cases hq : (lookupA (getRS (ensureRS s rm) rm).respawningPlayers pid).isSome
    · refine Or.inr ⟨player, ?_, ?_⟩
      · rw [← ensureRS_players s rm]
        exact hA
      · simp [hq, updateRS_players, ensureRS_players]
    · left
      simp [hq, ensureRS_players]

theorem startRoundStep_healthInv (roomId : String) (now : ℤ)
    (spawnOf : String → Pos) (acc : ServerState) (pid : String)
    (hinv : healthInv acc) :
    healthInv (startRoundStep roomId now spawnOf acc pid) := by
  unfold startRoundStep
  cases hA : lookupA acc.players pid with
  | none => exact hinv
  | some player =>
    obtain ⟨b0, b1, b2⟩ := hinv _ (lookupA_mem hA)
    refine healthInv_eq (updateRS_players _ _ _) ?_
    intro pr hpr
    rcases mem_insertA hpr with h | h
    · exact hinv pr h
    · rw [h]
      exact ⟨le_of_lt b2, le_refl _, b2⟩

theorem foldl_startRoundStep_healthInv (roomId : String) (now : ℤ)
    (spawnOf : String → Pos) (room : List String) :
    ∀ acc, healthInv acc →
      healthInv (room.foldl (startRoundStep roomId now spawnOf) acc) := by
  induction room with
  | nil => exact fun acc h => h
  | cons hd tl ih =>
    exact fun acc h => ih _ (startRoundStep_healthInv _ _ _ _ _ h)

theorem startRound_healthInv (s : ServerState) (rid : String) (now : ℤ)
    (spawnOf : String → Pos) (hinv : healthInv s) :
    healthInv (stateOfE (startRound s rid now spawnOf)) := by
  cases hroom : lookupA (ensureRS s (some rid)).rooms rid with
  | none =>
    simp only [startRound, hroom, stateOfE]
    exact healthInv_eq (updateRS_players _ _ _)
      (healthInv_eq (ensureRS_players _ _) hinv)
  | some room =>
    simp only [startRound, hroom]
    split <;>
      exact foldl_startRoundStep_healthInv rid now spawnOf room _
        (healthInv_eq (updateRS_players _ _ _)
          (healthInv_eq (ensureRS_players _ _) hinv))

/-- C3: every health-mutating operation (damage, vehicle selection, powerup
collection, round start, respawn) preserves the invariant that each player's
health lies within `[0, vehicle.maxHealth]` (with the vehicle max positive,
as it is for the connect default and all three presets). -/
theorem health_always_in_range
    (s : ServerState) (now : ℤ) (sid : String) (data : DamageData)
    (vid : Option String) (pwid : String) (rid : String)
    (spawnOf : String → Pos) (rm : Option String) (pid : String) (pos2 : Pos)
    (hinv : healthInv s) :
    healthInv (playerDamagedHandler s sid data now).1 ∧
    healthInv (vehicleSelectedHandler s sid vid).1 ∧
    healthInv (collectPowerupHandler s sid pwid now).1 ∧
    healthInv (stateOfE (startRound s rid now spawnOf)) ∧
    healthInv (respawnPlayer s rm pid now pos2).1 := by
  refine ⟨?_, ?_, ?_, startRound_healthInv s rid now spawnOf hinv, ?_⟩
  · rcases pdh_players_shape s sid data now with hp | ⟨tp, hfind, dmg, hdmg, hp⟩
    · exact healthInv_eq hp hinv
    · obtain ⟨b0, b1, b2⟩ := hinv _ (lookupA_mem hfind)
      refine healthInv_insert_case hp hinv (le_max_left 0 _) ?_ b2
      have hdq : (0 : ℚ) ≤ (dmg : ℚ) := by exact_mod_cast hdmg
      apply max_le (le_of_lt b2)
      linarith
  · rcases vehicle_players_shape s sid vid with hp | ⟨p, i, hfind, hp⟩
    · exact healthInv_eq hp hinv
    · obtain ⟨b0, b1, b2⟩ := hinv _ (lookupA_mem hfind)
      exact healthInv_insert_case hp hinv
        (le_min b0 (le_of_lt (presetFor_bounds i))) (min_le_right _ _)
        (presetFor_bounds i)
  · rcases collect_players_shape s sid pwid now with hp | ⟨p, hfind, hp⟩ | ⟨p, hfind, hp⟩
    · exact healthInv_eq hp hinv
    · obtain ⟨b0, b1, b2⟩ := hinv _ (lookupA_mem hfind)
      have hjs : jsOrQ p.vehicle.maxHealth 100 = p.vehicle.maxHealth := by
        unfold jsOrQ
        rw [if_neg (ne_of_gt b2)]
      refine healthInv_insert_case hp hinv ?_ ?_ b2
      · show (0 : ℚ) ≤ min (jsOrQ p.vehicle.maxHealth 100) (p.health + 40)
        rw [hjs]
        exact le_min (le_of_lt b2) (by linarith)
      · show min (jsOrQ p.vehicle.maxHealth 100) (p.health + 40) ≤ p.vehicle.maxHealth
        rw [hjs]
        exact min_le_left _ _
    · obtain ⟨b0, b1, b2⟩ := hinv _ (lookupA_mem hfind)
      exact healthInv_insert_case hp hinv b0 b1 b2
  · rcases respawn_players_shape s rm pid now pos2 with hp | ⟨p, hfind, hp⟩
    · exact healthInv_eq hp hinv
    · obtain ⟨b0, b1, b2⟩ := hinv _ (lookupA_mem hfind)
      exact healthInv_insert_case hp hinv (le_of_lt b2) (le_refl _) b2

/-- Witness for C3 at the concrete mid-round test state: the invariant holds
before and is preserved by a damage event, a vehicle switch, a powerup
collection, a round start and a respawn tick. -/
theorem health_always_in_range_witness :
    healthInv sBase ∧
    healthInv (playerDamagedHandler sBase "a" dSide 5000).1 ∧
    healthInv (vehicleSelectedHandler sBase "a" (some "sport")).1 ∧
    healthInv (collectPowerupHandler sBase "a" "pw1" 5000).1 ∧
    healthInv (stateOfE (startRound sBase "r" 5000 fun _ => posZ)) ∧
    healthInv (respawnPlayer sBase (some "r") "b" 5000 posZ).1 := by
  have hinv : healthInv sBase := by
    unfold healthInv
    decide
  have h := health_always_in_range sBase 5000 "a" dSide (some "sport") "pw1" "r"
    (fun _ => posZ) (some "r") "b" posZ hinv
  exact ⟨hinv, h.1, h.2.1, h.2.2.1, h.2.2.2.1, h.2.2.2.2⟩


/-- C8: collecting a powerup id is idempotent — once a collection for
`pwid` has succeeded (the id existed, uncollected), any later collection
request for the same id from any player of that room returns the state
unchanged and broadcasts nothing. -/
theorem collect_powerup_idempotent
    (s : ServerState) (sid pwid : String) (now : ℤ)
    (p : Player) (rm : String) (rs0 : RoomState) (pu : Powerup)
    (hp : lookupA s.players sid = some p) (hrm : p.room = some rm)
    (hgs : lookupA s.gameStates (some rm) = some rs0)
    (hpu : lookupA rs0.powerups pwid = some pu) (hcol : pu.collected = false)
    (hnd : (keysA rs0.powerups).Nodup)
    (sid2 : String) (now2 : ℤ) (p2 : Player)
    (hp2 : lookupA (collectPowerupHandler s sid pwid now).1.players sid2 = some p2)
    (hrm2 : p2.room = some rm) :
    collectPowerupHandler (collectPowerupHandler s sid pwid now).1 sid2 pwid now2 =
      ((collectPowerupHandler s sid pwid now).1, []) := by
  have hens : ensureRS s (some rm) = s := ensureRS_of_some hgs
  have hrs : getRS s (some rm) = rs0 := by
    unfold getRS
    rw [hgs]
    rfl
  have hkey : lookupA (collectPowerupHandler s sid pwid now).1.gameStates (some rm) =
      some { rs0 with
             powerups := eraseA
               (insertA rs0.powerups pwid { pu with collected := true }) pwid } := by
    simp only [collectPowerupHandler, hp, hrm, hens, hrs, hpu, hcol,
      Bool.false_eq_true, if_false]
    split
    · simp [updateRS, hgs, lookupA_insertA]
    · split
      · simp [updateRS, hgs, lookupA_insertA]
      · simp [updateRS, hgs, lookupA_insertA]
  have hnone : lookupA
      (getRS (collectPowerupHandler s sid pwid now).1 (some rm)).powerups pwid = none := by
    unfold getRS
    rw [hkey]
    show lookupA (eraseA (insertA rs0.powerups pwid
      { pu with collected := true }) pwid) pwid = none
    exact lookupA_eraseA_self pwid (keysA_nodup_insertA _ _ hnd)
  have hens2 : ensureRS (collectPowerupHandler s sid pwid now).1 (some rm) =
      (collectPowerupHandler s sid pwid now).1 := ensureRS_of_some hkey
  set s1 := (collectPowerupHandler s sid pwid now).1 with hs1
  simp only [collectPowerupHandler, hp2, hrm2, hens2, hnone]

/-- Witness for C8: after `a` collects `pw1` in the test state, a second
request for `pw1` from `b` changes nothing and emits nothing. -/
theorem collect_powerup_idempotent_witness :
    collectPowerupHandler (collectPowerupHandler sPow "a" "pw1" 100).1 "b" "pw1" 200 =
      ((collectPowerupHandler sPow "a" "pw1" 100).1, []) :=
  collect_powerup_idempotent sPow "a" "pw1" 100 ({ pA with health := 50 }) "r"
    rsPow ⟨"health", posZ, 0, false, 3000, 45000⟩ rfl rfl rfl rfl rfl
    (by decide) "b" 200 pB rfl rfl


/-- Counterexample to C4 as stated: disconnecting the sole (active) member
of room `r` deletes their membership entry but leaves them inside the
room's `activePlayers` set, so `activePlayers ∪ respawningPlayers.keys ⊆
membership` is broken right after the disconnect. -/
theorem disconnect_leaves_active_counterexample :
    ("a" ∈ (getRS (disconnectHandler sSolo "a" "t0").1 (some "r")).activePlayers) ∧
    lookupA (disconnectHandler sSolo "a" "t0").1.rooms "r" = none := by
  decide

/-- C4 (amended): a disconnect removes the player from the room's
membership list (deleting the room if it empties) and deletes the registry
entry, but it does not touch the per-room game state at all: the departed
id stays in `activePlayers`/`respawningPlayers` until the next round start
clears them. -/
theorem disconnect_removes_membership_and_registry
    (s : ServerState) (sid ts : String) (p : Player) (rm : String)
    (hp : lookupA s.players sid = some p) (hrm : p.room = some rm)
    (hpn : (keysA s.players).Nodup)
    (hrn : (keysA s.rooms).Nodup)
    (hmem : ∀ l, lookupA s.rooms rm = some l → l.Nodup) :
    lookupA (disconnectHandler s sid ts).1.players sid = none ∧
    (∀ l, lookupA (disconnectHandler s sid ts).1.rooms rm = some l → sid ∉ l) ∧
    (disconnectHandler s sid ts).1.gameStates = s.gameStates := by
  cases hl : lookupA s.rooms rm with
  | none =>
    simp only [disconnectHandler, hp, hrm, hl]
    refine ⟨lookupA_eraseA_self sid hpn, ?_, trivial⟩
    intro l hl2
    simp at hl2
  | some room =>
    by_cases hmem2 : sid ∈ room
    · by_cases hempty : (room.erase sid).isEmpty
      · simp only [disconnectHandler, hp, hrm, hl, hmem2, if_true, hempty]
        refine ⟨lookupA_eraseA_self sid hpn, ?_, trivial⟩
        intro l hl2
        rw [lookupA_eraseA_self rm hrn] at hl2
        simp at hl2
      · simp only [disconnectHandler, hp, hrm, hl, hmem2, if_true, hempty,
          Bool.false_eq_true, if_false]
        refine ⟨lookupA_eraseA_self sid hpn, ?_, trivial⟩
        intro l hl2
        rw [lookupA_insertA] at hl2
        simp only [if_true, eq_self_iff_true, Option.some.injEq] at hl2
        rw [← hl2]
        intro hin
        exact absurd (((hmem room hl).mem_erase_iff.mp hin).1) (by simp)
    · simp only [disconnectHandler, hp, hrm, hl, hmem2, if_false]
      refine ⟨lookupA_eraseA_self sid hpn, ?_, trivial⟩
      intro l hl2
      rw [← Option.some.inj hl2]
      exact hmem2

/-- Witness for the amended C4 at the concrete one-player room. -/
theorem disconnect_removes_membership_and_registry_witness :
    lookupA (disconnectHandler sSolo "a" "t0").1.players "a" = none ∧
    (∀ l, lookupA (disconnectHandler sSolo "a" "t0").1.rooms "r" = some l → "a" ∉ l) ∧
    (disconnectHandler sSolo "a" "t0").1.gameStates = sSolo.gameStates :=
  disconnect_removes_membership_and_registry sSolo "a" "t0" pA "r" rfl rfl
    (by decide) (by decide)
    (fun l hl => (Option.some.inj hl) ▸ (by decide : (["a"] : List String).Nodup))

theorem startRoundStep_rooms (roomId : String) (now : ℤ)
    (spawnOf : String → Pos) (acc : ServerState) (pid : String) :
    (startRoundStep roomId now spawnOf acc pid).rooms = acc.rooms := by
  unfold startRoundStep
  cases hA : lookupA acc.players pid with
  | none => rfl
  | some player => simp [updateRS_rooms]

theorem foldl_startRoundStep_rooms (roomId : String) (now : ℤ)
    (spawnOf : String → Pos) (room : List String) :
    ∀ acc : ServerState,
      (room.foldl (startRoundStep roomId now spawnOf) acc).rooms = acc.rooms := by
  induction room with
  | nil => exact fun acc => rfl
  | cons hd tl ih =>
    intro acc
    rw [List.foldl_cons, ih, startRoundStep_rooms]

theorem startRound_stateRooms (s : ServerState) (rid : String) (now : ℤ)
    (spawnOf : String → Pos) :
    (stateOfE (startRound s rid now spawnOf)).rooms = s.rooms := by
  cases hroom : lookupA (ensureRS s (some rid)).rooms rid with
  | none =>
    simp only [startRound, hroom, stateOfE]
    rw [updateRS_rooms, ensureRS_rooms]
  | some room =>
    simp only [startRound, hroom]
    split <;> simp only [stateOfE] <;>
      rw [foldl_startRoundStep_rooms, updateRS_rooms, ensureRS_rooms]

theorem getBoostPads_rooms (s : ServerState) (rid : String) :
    (getBoostPads s rid).1.rooms = s.rooms := by
  unfold getBoostPads
  split <;> rfl

theorem joinRoomFinish_rooms (sid roomId : String) (newRoom : List String)
    (p2 : Player) (eSys : Emit)
    (aft : Except ServerState (ServerState × List Emit)) :
    (stateOfE (joinRoomFinish sid roomId newRoom p2 eSys aft)).rooms =
      (stateOfE aft).rooms := by
  cases aft with
  | error st => rfl
  | ok pr =>
    obtain ⟨s6, eStart⟩ := pr
    simp only [joinRoomFinish, stateOfE]
    split <;> simp [updateRS_rooms, getBoostPads_rooms]

theorem joinRoom_rooms_shape (s : ServerState) (sid : String)
    (roomIdArg : Option String) (now : ℤ) (ts : String) (pos2 : Pos)
    (spawnOf : String → Pos) (p : Player)
    (hp : lookupA s.players sid = some p)
    (hcap : ((lookupA s.rooms (joinRoomId roomIdArg)).getD []).length <
      maxPlayersPerRoom) :
    (stateOfE (joinRoomHandler s sid roomIdArg now ts pos2 spawnOf)).rooms =
      insertA (leaveRooms s sid p) (joinRoomId roomIdArg)
        ((lookupA (leaveRooms s sid p) (joinRoomId roomIdArg)).getD [] ++ [sid]) := by
  simp only [joinRoomHandler, hp]
  rw [if_pos hcap]
  rw [joinRoomFinish_rooms]
  split
  · rw [startRound_stateRooms]
    simp [updateRS_rooms, ensureRS_rooms]
  · simp [stateOfE, updateRS_rooms, ensureRS_rooms]

/-- C9 counterexample: the reserved `default` room IS deleted when its last
member disconnects (no exemption exists in the disconnect handler), and a
room emptied by its member joining a different room is NOT deleted — the
emptied entry stays in the rooms map. -/
theorem room_deletion_counterexample :
    lookupA (disconnectHandler sDefault "d1" "t0").1.rooms "default" = none ∧
    lookupA (stateOfE (joinRoomHandler sLeave "j1" (some "bbb") 1000 "t0" posZ
      (fun _ => posZ))).rooms "aaa" = some [] := by
  constructor
  · rfl
  · rfl

/-- C9 (amended): room deletion happens exactly in the disconnect handler.
When a disconnect empties a room's member list the room entry is deleted
from the map — the reserved `default` room included; when a player empties
a room by joining a different room, the vacated entry is spliced down to
the empty list but stays in the map. -/
theorem room_deletion_exact
    (s s2 : ServerState) (sid sid2 ts ts2 : String) (p p2 : Player)
    (rm prevRm : String) (l0 : List String) (roomIdArg : Option String)
    (now : ℤ) (pos2 : Pos) (spawnOf : String → Pos)
    (hp : lookupA s.players sid = some p)
    (hrm : p.room = some rm)
    (hl : lookupA s.rooms rm = some [sid])
    (hrn : (keysA s.rooms).Nodup)
    (hp2 : lookupA s2.players sid2 = some p2)
    (hrm2 : p2.room = some prevRm)
    (hl2 : lookupA s2.rooms prevRm = some l0)
    (hne : joinRoomId roomIdArg ≠ prevRm)
    (hcap : ((lookupA s2.rooms (joinRoomId roomIdArg)).getD []).length <
      maxPlayersPerRoom) :
    lookupA (disconnectHandler s sid ts).1.rooms rm = none ∧
    lookupA (stateOfE (joinRoomHandler s2 sid2 roomIdArg now ts2 pos2
      spawnOf)).rooms prevRm = some (l0.erase sid2) := by
  constructor
  · simp only [disconnectHandler, hp, hrm, hl]
    simp [lookupA_eraseA_self rm hrn]
  · rw [joinRoom_rooms_shape s2 sid2 roomIdArg now ts2 pos2 spawnOf p2 hp2 hcap]
    rw [lookupA_insertA]
    rw [if_neg hne]
    simp only [leaveRooms, hrm2, hl2]
    by_cases hin : sid2 ∈ l0
    · rw [if_pos hin, lookupA_insertA, if_pos rfl]
    · rw [if_neg hin, List.erase_of_not_mem hin]
      exact hl2

theorem room_deletion_exact_witness :
    lookupA (disconnectHandler sDefault "d1" "t0").1.rooms "default" = none ∧
    lookupA (stateOfE (joinRoomHandler sLeave "j1" (some "bbb") 1000 "t0" posZ
      (fun _ => posZ))).rooms "aaa" = some (["j1"].erase "j1") :=
  room_deletion_exact sDefault sLeave "d1" "j1" "t0" "t0"
    { pA with name := "Dana", room := some "default" }
    { pA with name := "Jo", room := some "aaa" }
    "default" "aaa" ["j1"] (some "bbb") 1000 posZ (fun _ => posZ)
    rfl rfl rfl (by decide) rfl rfl rfl (by decide) (by decide)

/-- C5 refuted: both registered `chatMessage` listeners run on each inbound
event. In the two-member room `r`, a chat from `a` is relayed once by the
first handler (`socket.to`, trimmed) and once more by the second handler
(`io.to`, raw): the other member `b` receives two server chat messages and
the sender `a` receives one, where the claim says exactly one and zero. -/
theorem chat_double_delivery :
    chatDeliveries sBase (chatDispatch sBase "a" (some " hi ") "t0") "b" = 2 ∧
    chatDeliveries sBase (chatDispatch sBase "a" (some " hi ") "t0") "a" = 1 := by
  constructor
  · rfl
  · rfl

/-- C6 refuted: the 20-second round-restart one-shot scheduled by `endRound`
is not a no-op when the restarted room has meanwhile been deleted (every
member of the `roundEnd`-phase room disconnected before the timer fired):
`startRound` reaches `room.forEach` with `room` undefined and throws an
uncaught `TypeError`, modelled as `.error` — while the per-tick respawn
processing on the same state null-checks and really is a no-op. -/
theorem round_restart_timer_throws :
    isErr (startRound sGone "r" 1000 (fun _ => posZ)) = true ∧
    (respawnPlayer sGone (some "r") "a" 1000 posZ).1 = sGone := by
  constructor
  · rfl
  · rfl

end BattleCars
